/- Verification of the bfhl REST service (src/main.py) against its
   specification. The Python functions are embedded shallowly: Python ints
   become Int, raised exceptions become Except values tagged with the
   exception class that Python would raise, and the FastAPI dispatcher
   becomes a pure function from the request record (plus the ambient
   configuration and the upstream HTTP outcome) to the response envelope. -/
import Mathlib

set_option linter.unusedVariables false
set_option maxRecDepth 2000

/-- The exception classes that the Python code can raise while handling a
    request: ValueError with its message, ZeroDivisionError (from the
    integer division in lcm), the KeyError or IndexError raised while
    indexing into the upstream JSON body, and the OverflowError raised when
    an int at or above 2^1024 is converted to float in x**0.5. The
    dispatcher catches ValueError specially and everything else through
    the catch-all handler. -/
inductive PyError where
  | valueError (msg : String)
  | zeroDivision
  | lookupError
  | overflowError
deriving DecidableEq, Repr

instance exceptDecEq {ε α : Type} [DecidableEq ε] [DecidableEq α] :
    DecidableEq (Except ε α) := fun a b =>
  match a, b with
  | Except.ok x, Except.ok y =>
      if h : x = y then Decidable.isTrue (congrArg Except.ok h)
      else Decidable.isFalse (fun hc => h (Except.ok.inj hc))
  | Except.ok _, Except.error _ =>
      Decidable.isFalse (fun hc => Except.noConfusion hc)
  | Except.error _, Except.ok _ =>
      Decidable.isFalse (fun hc => Except.noConfusion hc)
  | Except.error e, Except.error f =>
      if h : e = f then Decidable.isTrue (congrArg Except.error h)
      else Decidable.isFalse (fun hc => h (Except.error.inj hc))

def OFFICIAL_EMAIL : String := "gorav0083.be23@chitkara.edu.in"

def msgNonneg : String := "Number must be non-negative"

def msgEmpty : String := "List cannot be empty"

def msgOneKey : String := "Exactly one key must be provided"

def msgNoApiKey : String := "AI API key not configured"

def msgAiService : String := "AI service error"

def msgInternal : String := "Internal server error"

def msgInvalidKey : String := "Invalid key"

def emptyStr : String := ""

/-- The loop body of generate_fibonacci: repeat n times
    series.append(a); a, b = b, a + b. -/
def fibLoop : Nat → Int → Int → List Int
  | 0, _, _ => []
  | Nat.succ k, a, b => a :: fibLoop k b (a + b)

/-- Embedding of generate_fibonacci from src/main.py: raises
    ValueError("Number must be non-negative") for n < 0, otherwise runs the
    append loop n times starting from a = 0, b = 1. -/
def generate_fibonacci (n : Int) : Except PyError (List Int) :=
  if n < 0 then Except.error (PyError.valueError msgNonneg)
  else Except.ok (fibLoop n.toNat 0 1)

/-- Largest m with m * m ≤ n among m ≤ k, by downward scan. -/
def isqrtAux : Nat → Nat → Nat
  | 0, _ => 0
  | Nat.succ k, n =>
      if Nat.succ k * Nat.succ k ≤ n then Nat.succ k else isqrtAux k n

/-- The integer square root, as an executable structural recursion; proved
    below to agree with Nat.sqrt. -/
def isqrt (n : Nat) : Nat := isqrtAux n n

/-- The smallest int whose conversion to a Python float raises
    OverflowError: 2^1024, written as a numeral so that comparisons against
    it evaluate fast; proved equal to 2^1024 below. -/
def floatOverflowBound : Int :=
  179769313486231590772930519078902473361797697894230657273430081157732675805500963132708477322407536021120113879871393357658789768814416622492847430639474124377767893424865485276302219601246094119453082952085005768838150682342462881473913110540827237163350510684586298239947245938479716304835356329624224137216

/-- Embedding of the inner is_prime of get_primes: False for x < 2,
    otherwise trial division over range(2, int(x**0.5) + 1). The Python
    bound int(x**0.5) is computed in floating point: converting an int at
    or above 2^1024 to float raises OverflowError, embedded here exactly.
    Below that bound this embedding uses the exact integer square root,
    which agrees with the floating-point value for every x < 2^52 on a
    platform whose pow(x, 0.5) is the correctly rounded square root; for
    larger x the platform libm value may undershoot the true root, and no
    theorem below relies on that range. -/
def is_prime (x : Int) : Except PyError Bool :=
  if x < 2 then Except.ok false
  else if floatOverflowBound ≤ x then Except.error PyError.overflowError
  else Except.ok
    ((List.range' 2 (isqrt x.toNat - 1)).all (fun i => x % (i : Int) != 0))

/-- The list comprehension of get_primes: is_prime runs on the elements
    left to right and its first exception aborts the whole
    comprehension. -/
def primeFilterLoop : List Int → Except PyError (List Int)
  | [] => Except.ok []
  | x :: xs =>
      match is_prime x with
      | Except.error e => Except.error e
      | Except.ok b =>
          match primeFilterLoop xs with
          | Except.error e => Except.error e
          | Except.ok ys => Except.ok (if b then x :: ys else ys)

/-- Embedding of get_primes from src/main.py: raises
    ValueError("List cannot be empty") on [], otherwise keeps the elements
    on which is_prime returns True, preserving order, propagating any
    exception is_prime raises. -/
def get_primes (numbers : List Int) : Except PyError (List Int) :=
  if numbers = [] then Except.error (PyError.valueError msgEmpty)
  else primeFilterLoop numbers

/-- One step of the reduce inside calculate_lcm:
    lcm(a, b) = abs(a * b) // gcd(a, b). Python raises ZeroDivisionError
    when gcd(a, b) = 0; both operands of the division are non-negative, so
    floor division coincides with Nat division. -/
def lcmPair (a b : Int) : Except PyError Int :=
  if Int.gcd a b = 0 then Except.error PyError.zeroDivision
  else Except.ok (((a * b).natAbs / Int.gcd a b : Nat) : Int)

/-- functools.reduce of lcmPair over the tail, with the exception aborting
    the fold as it does in Python. -/
def lcmFold : Int → List Int → Except PyError Int
  | a, [] => Except.ok a
  | a, b :: xs =>
    match lcmPair a b with
    | Except.error e => Except.error e
    | Except.ok c => lcmFold c xs

/-- Embedding of calculate_lcm from src/main.py: raises
    ValueError("List cannot be empty") on [], otherwise
    reduce(lcm, numbers) left to right. -/
def calculate_lcm (numbers : List Int) : Except PyError Int :=
  match numbers with
  | [] => Except.error (PyError.valueError msgEmpty)
  | x :: xs => lcmFold x xs

/-- One step of the reduce inside calculate_hcf: math.gcd, which returns
    the non-negative greatest common divisor. -/
def gcdStep (a b : Int) : Int := (Int.gcd a b : Nat)

/-- Embedding of calculate_hcf from src/main.py: raises
    ValueError("List cannot be empty") on [], otherwise
    reduce(gcd, numbers) left to right. -/
def calculate_hcf (numbers : List Int) : Except PyError Int :=
  match numbers with
  | [] => Except.error (PyError.valueError msgEmpty)
  | x :: xs => Except.ok (xs.foldl gcdStep x)

/-- The code points CPython treats as whitespace in str.strip() and
    str.split() (the Py_UNICODE_ISSPACE table): 0x09-0x0d, 0x1c-0x1f,
    space, NEL 0x85, NBSP 0xa0, Ogham space, the Zs en/em spaces
    0x2000-0x200a, line and paragraph separators, narrow NBSP, medium
    mathematical space and ideographic space. -/
def pyWhitespaceCodes : List Nat :=
  [0x09, 0x0a, 0x0b, 0x0c, 0x0d, 0x1c, 0x1d, 0x1e, 0x1f, 0x20,
   0x85, 0xa0, 0x1680, 0x2000, 0x2001, 0x2002, 0x2003, 0x2004, 0x2005,
   0x2006, 0x2007, 0x2008, 0x2009, 0x200a, 0x2028, 0x2029, 0x202f,
   0x205f, 0x3000]

/-- Whether a character is whitespace for Python string methods. -/
def pyIsSpace (c : Char) : Bool := pyWhitespaceCodes.contains c.toNat

/-- Python str.strip() with no argument: drop leading and trailing
    whitespace, working on the character list of the string. -/
def pyStrip (s : String) : String :=
  String.mk
    (((s.data.dropWhile pyIsSpace).reverse.dropWhile pyIsSpace).reverse)

/-- Worker for str.split(): walk the characters keeping an accumulator of
    the current word (reversed); whitespace closes the current word, and
    empty fragments are never emitted. -/
def pyWordsAux : List Char → List Char → List String
  | [], acc => if acc = [] then [] else [String.mk acc.reverse]
  | c :: cs, acc =>
      if pyIsSpace c then
        if acc = [] then pyWordsAux cs []
        else String.mk acc.reverse :: pyWordsAux cs []
      else pyWordsAux cs (c :: acc)

/-- Python str.split() with no argument: split on whitespace runs and drop
    empty fragments. -/
def pyWords (s : String) : List String := pyWordsAux s.data []

/-- answer.strip().split()[0] from ask_gemini: the first whitespace
    delimited word of the stripped text; indexing an empty word list raises
    IndexError, embedded as PyError.lookupError. -/
def firstWord (s : String) : Except PyError String :=
  match pyWords (pyStrip s) with
  | [] => Except.error PyError.lookupError
  | w :: _ => Except.ok w

/-- The observable outcome of the one upstream HTTP POST that ask_gemini
    performs: the status code, and the value found at
    candidates[0].content.parts[0].text when that path exists in the JSON
    body (none embeds every malformed shape, for which the Python indexing
    raises KeyError or IndexError). -/
structure UpstreamResponse where
  status_code : Int
  text : Option String
deriving DecidableEq, Repr

/-- Embedding of ask_gemini from src/main.py. GEMINI_API_KEY is the ambient
    configuration value (os.getenv returns None when unset, and Python
    treats both None and the empty string as falsy). A non-200 status
    raises ValueError("AI service error"); a missing credential raises
    ValueError("AI API key not configured"); a malformed body raises a
    lookup error; otherwise the answer is the first word of the text. -/
def ask_gemini (apiKey : Option String) (upstream : UpstreamResponse)
    (question : String) : Except PyError String :=
  if apiKey.getD emptyStr = emptyStr then
    Except.error (PyError.valueError msgNoApiKey)
  else if upstream.status_code ≠ 200 then
    Except.error (PyError.valueError msgAiService)
  else
    match upstream.text with
    | none => Except.error PyError.lookupError
    | some t => firstWord t

/-- The request model BFHLRequest: five optional fields, all defaulting to
    None, in the declaration order of the pydantic model. -/
structure BFHLRequest where
  fibonacci : Option Int
  prime : Option (List Int)
  lcm : Option (List Int)
  hcf : Option (List Int)
  AI : Option String
deriving DecidableEq, Repr

/-- The possible shapes of the data field of a successful envelope. -/
inductive BFHLData where
  | intList (xs : List Int)
  | intVal (n : Int)
  | strVal (s : String)
deriving DecidableEq, Repr

/-- A response from the endpoint: the HTTP status code together with the
    JSON envelope fields (is_success, official_email, optional data,
    optional error). -/
structure Response where
  status : Nat
  is_success : Bool
  official_email : String
  data : Option BFHLData
  error : Option String
deriving DecidableEq, Repr

/-- len([k for k, v in request.dict().items() if v is not None]). -/
def providedCount (r : BFHLRequest) : Nat :=
  (if r.fibonacci.isSome then 1 else 0) + (if r.prime.isSome then 1 else 0)
    + (if r.lcm.isSome then 1 else 0) + (if r.hcf.isSome then 1 else 0)
    + (if r.AI.isSome then 1 else 0)

/-- The elif chain of process_request, keyed on provided_keys[0]. Under the
    guard providedCount = 1 exactly one field is some, so matching the
    first provided field in declaration order picks the same branch that
    the Python chain picks for the unique provided key. -/
def dispatch (apiKey : Option String) (upstream : UpstreamResponse)
    (req : BFHLRequest) : Except PyError BFHLData :=
  match req.fibonacci, req.prime, req.lcm, req.hcf, req.AI with
  | some n, _, _, _, _ => (generate_fibonacci n).map BFHLData.intList
  | none, some l, _, _, _ => (get_primes l).map BFHLData.intList
  | none, none, some l, _, _ => (calculate_lcm l).map BFHLData.intVal
  | none, none, none, some l, _ => (calculate_hcf l).map BFHLData.intVal
  | none, none, none, none, some q =>
      (ask_gemini apiKey upstream q).map BFHLData.strVal
  | none, none, none, none, none =>
      Except.error (PyError.valueError msgInvalidKey)

/-- The try/except of process_request: success gives 200 with data;
    except ValueError gives 400 with str(e) in the error field;
    except Exception gives 500 with the generic message. -/
def envelopeOf (result : Except PyError BFHLData) : Response :=
  match result with
  | Except.ok d => Response.mk 200 true OFFICIAL_EMAIL (some d) none
  | Except.error (PyError.valueError msg) =>
      Response.mk 400 false OFFICIAL_EMAIL none (some msg)
  | Except.error _ =>
      Response.mk 500 false OFFICIAL_EMAIL none (some msgInternal)

/-- Embedding of the POST /bfhl handler process_request from src/main.py:
    the exactly-one-key validation, then dispatch wrapped by the exception
    handlers. -/
def process_request (apiKey : Option String) (upstream : UpstreamResponse)
    (req : BFHLRequest) : Response :=
  if providedCount req ≠ 1 then
    Response.mk 400 false OFFICIAL_EMAIL none (some msgOneKey)
  else envelopeOf (dispatch apiKey upstream req)

/-- Written from the words of the spec, for comparison with the code:
    lcm(a,b) = |a*b| / gcd(a,b) as a total function (Nat division). -/
def spec_lcm_step (a b : Int) : Int := ((a * b).natAbs / Int.gcd a b : Nat)

/-- A request that provides only the AI field. -/
def aiRequest (q : String) : BFHLRequest :=
  BFHLRequest.mk none none none none (some q)

/-- A request that provides no field at all. -/
def emptyRequest : BFHLRequest := BFHLRequest.mk none none none none none

def sampleQuestion : String := "q"

def sampleKey : String := "k"

def helloText : String := "  hello   world  "

def helloWord : String := "hello"

def worldWord : String := "world"

def upstream200 : UpstreamResponse := UpstreamResponse.mk 200 none

def upstream503 : UpstreamResponse := UpstreamResponse.mk 503 none

def upstreamHello : UpstreamResponse :=
  UpstreamResponse.mk 200 (some helloText)

/-- The append loop started at consecutive Fibonacci numbers lists the
    Fibonacci numbers from that index on. -/
theorem fibLoop_fib (k : Nat) : ∀ i : Nat,
    fibLoop k (Nat.fib i) (Nat.fib (i + 1)) =
      (List.range' i k).map (fun j => (Nat.fib j : Int)) := by
  induction k with
  | zero => intro i; rfl
  | succ k ih =>
      intro i
      have h2 : ((Nat.fib i : Int) + (Nat.fib (i + 1) : Int))
          = (Nat.fib (i + 1 + 1) : Int) := by
        rw [show i + 1 + 1 = i + 2 from rfl, Nat.fib_add_two]
        push_cast
        ring
      simp only [fibLoop]
      rw [h2, ih (i + 1), List.range'_succ, List.map_cons]

/-- For non-negative n, generate_fibonacci returns the first n Fibonacci
    numbers. -/
theorem generate_fibonacci_eq (n : Int) (h : 0 ≤ n) :
    generate_fibonacci n =
      Except.ok ((List.range n.toNat).map (fun j => (Nat.fib j : Int))) := by
  unfold generate_fibonacci
  rw [if_neg (by omega : ¬ n < 0)]
  have h0 : fibLoop n.toNat 0 1
      = fibLoop n.toNat (Nat.fib 0) (Nat.fib (0 + 1)) := rfl
  rw [h0, fibLoop_fib n.toNat 0, List.range_eq_range']

theorem isqrtAux_eq (n : Nat) : ∀ k, isqrtAux k n = min k (Nat.sqrt n) := by
  intro k
  induction k with
  | zero => simp [isqrtAux]
  | succ k ih =>
      by_cases h : Nat.succ k * Nat.succ k ≤ n
      · have hle : Nat.succ k ≤ Nat.sqrt n := Nat.le_sqrt.mpr h
        simp only [isqrtAux, if_pos h]
        omega
      · have hs : Nat.sqrt n ≤ k := by
          by_contra hc
          push_neg at hc
          exact h (Nat.le_sqrt.mp hc)
        simp only [isqrtAux, if_neg h]
        rw [ih]
        omega

theorem isqrt_eq (n : Nat) : isqrt n = Nat.sqrt n := by
  unfold isqrt
  rw [isqrtAux_eq]
  exact Nat.min_eq_right (Nat.sqrt_le_self n)

/-- The overflow bound is 2^1024, the least int that a Python float
    cannot represent. -/
theorem floatOverflowBound_eq : floatOverflowBound = 2 ^ 1024 := by
  norm_num [floatOverflowBound]

/-- The trial division of the source over the exact integer square root
    is exactly mathematical primality of the value. -/
theorem trial_all_iff (x : Int) (hx : 2 ≤ x) :
    (List.range' 2 (isqrt x.toNat - 1)).all
        (fun i => x % (i : Int) != 0) = true
      ↔ Nat.Prime x.toNat := by
  have hxn : x = ((x.toNat : Nat) : Int) :=
    (Int.toNat_of_nonneg (by omega)).symm
  have hn2 : 2 ≤ x.toNat := by omega
  rw [List.all_eq_true]
  constructor
  · intro h
    refine Nat.prime_def_le_sqrt.mpr ⟨hn2, ?_⟩
    intro m hm2 hmsqrt
    have h1 : 1 ≤ Nat.sqrt x.toNat := by
      rw [Nat.le_sqrt]
      omega
    have hmem : m ∈ List.range' 2 (isqrt x.toNat - 1) := by
      rw [List.mem_range']
      refine ⟨m - 2, ?_, by omega⟩
      rw [isqrt_eq]
      omega
    have hne := h m hmem
    rw [bne_iff_ne] at hne
    intro hdvd
    apply hne
    rw [← Int.dvd_iff_emod_eq_zero, hxn]
    exact_mod_cast hdvd
  · intro hp i hi
    rw [List.mem_range'] at hi
    obtain ⟨j, hj, rfl⟩ := hi
    rw [isqrt_eq] at hj
    rw [bne_iff_ne]
    intro hmod
    have hdvd : ((2 + 1 * j : Nat) : Int) ∣ x :=
      Int.dvd_iff_emod_eq_zero.mpr hmod
    have hdvdn : (2 + 1 * j) ∣ x.toNat := by
      rw [hxn] at hdvd
      exact_mod_cast hdvd
    have hlt := (Nat.prime_def_le_sqrt.mp hp).2 (2 + 1 * j) (by omega)
      (by omega)
    exact hlt hdvdn

/-- Below the float-overflow bound, is_prime returns a Boolean, and it is
    the mathematical primality decision with values below 2 excluded. -/
theorem is_prime_ok (x : Int) (hov : x < 2 ^ 1024) :
    is_prime x = Except.ok (decide (2 ≤ x ∧ Nat.Prime x.toNat)) := by
  have hov2 : x < floatOverflowBound := by
    rw [floatOverflowBound_eq]
    exact hov
  unfold is_prime
  rcases lt_or_le x 2 with h2 | h2
  · rw [if_pos h2]
    congr 1
    symm
    rw [decide_eq_false]
    rintro ⟨hc, -⟩
    omega
  · rw [if_neg (not_lt.mpr h2), if_neg (not_le.mpr hov2)]
    congr 1
    by_cases hp : 2 ≤ x ∧ Nat.Prime x.toNat
    · rw [(trial_all_iff x h2).mpr hp.2, decide_eq_true hp]
    · have hnp : ¬ Nat.Prime x.toNat := fun hc => hp ⟨h2, hc⟩
      have hfalse : ¬ ((List.range' 2 (isqrt x.toNat - 1)).all
          (fun i => x % (i : Int) != 0) = true) :=
        fun hc => hnp ((trial_all_iff x h2).mp hc)
      rw [Bool.not_eq_true] at hfalse
      rw [hfalse, decide_eq_false hp]

/-- On elements inside the float-exact range the comprehension is the
    order-preserving primality filter. -/
theorem primeFilterLoop_eq : ∀ (l : List Int), (∀ x ∈ l, x < 2 ^ 52) →
    primeFilterLoop l = Except.ok (l.filter (fun x =>
      decide (2 ≤ x ∧ Nat.Prime x.toNat))) := by
  intro l
  induction l with
  | nil => intro _; rfl
  | cons x xs ih =>
      intro h
      have hx : x < 2 ^ 52 := h x (List.mem_cons_self x xs)
      have hov : x < 2 ^ 1024 := lt_trans hx (by norm_num)
      have hxs := ih (fun y hy => h y (List.mem_cons.mpr (Or.inr hy)))
      show (match is_prime x with
            | Except.error e => Except.error e
            | Except.ok b =>
                match primeFilterLoop xs with
                | Except.error e => Except.error e
                | Except.ok ys => Except.ok (if b then x :: ys else ys)) = _
      rw [is_prime_ok x hov, hxs, List.filter_cons]

/-- The code formula |a*b| / gcd(a,b) is the (non-negative) least common
    multiple, including the total-division convention at gcd = 0. -/
theorem spec_lcm_step_eq (a b : Int) :
    spec_lcm_step a b = ((Int.lcm a b : Nat) : Int) := by
  unfold spec_lcm_step
  rw [Int.natAbs_mul]
  rfl

theorem natLcm_eq_zero_iff (m n : Nat) :
    Nat.lcm m n = 0 ↔ m = 0 ∨ n = 0 := by
  constructor
  · intro h
    by_contra hc
    push_neg at hc
    exact Nat.lcm_ne_zero hc.1 hc.2 h
  · rintro (rfl | rfl)
    · exact Nat.lcm_zero_left n
    · exact Nat.lcm_zero_right m

theorem spec_lcm_step_eq_zero (a b : Int) :
    spec_lcm_step a b = 0 ↔ a = 0 ∨ b = 0 := by
  rw [spec_lcm_step_eq, Int.natCast_eq_zero]
  show Nat.lcm a.natAbs b.natAbs = 0 ↔ _
  rw [natLcm_eq_zero_iff]
  simp [Int.natAbs_eq_zero]

theorem lcmPair_eq_ok (a b : Int) (h : ¬(a = 0 ∧ b = 0)) :
    lcmPair a b = Except.ok (spec_lcm_step a b) := by
  have hg : ¬ Int.gcd a b = 0 := by
    rw [Int.gcd_eq_zero_iff]
    exact h
  unfold lcmPair
  rw [if_neg hg]
  rfl

theorem lcmPair_ok_nonneg (a b c : Int) (h : lcmPair a b = Except.ok c) :
    0 ≤ c := by
  unfold lcmPair at h
  split at h
  · exact Except.noConfusion h
  · cases h
    exact Int.natCast_nonneg _

theorem lcmFold_cons (a b : Int) (xs : List Int) :
    lcmFold a (b :: xs) = match lcmPair a b with
      | Except.error e => Except.error e
      | Except.ok c => lcmFold c xs := rfl

/-- As long as at most one zero is in play (counting a zero accumulator),
    the reduce of calculate_lcm never divides by zero and computes the
    left fold of the spec formula. -/
theorem lcmFold_eq_of_count : ∀ (xs : List Int) (a : Int),
    (a = 0 → xs.count 0 = 0) → (a ≠ 0 → xs.count 0 ≤ 1) →
    lcmFold a xs = Except.ok (xs.foldl spec_lcm_step a) := by
  intro xs
  induction xs with
  | nil => intro a _ _; rfl
  | cons b xs ih =>
      intro a h0 h1
      by_cases hb : b = 0
      · subst hb
        have ha : a ≠ 0 := by
          intro ha
          have hc := h0 ha
          rw [List.count_cons_self] at hc
          omega
        have hxs : xs.count 0 = 0 := by
          have hc := h1 ha
          rw [List.count_cons_self] at hc
          omega
        rw [lcmFold_cons, lcmPair_eq_ok a 0 (fun hc => ha hc.1)]
        have hzero : spec_lcm_step a 0 = 0 :=
          (spec_lcm_step_eq_zero a 0).mpr (Or.inr rfl)
        show lcmFold (spec_lcm_step a 0) xs
            = Except.ok (xs.foldl spec_lcm_step (spec_lcm_step a 0))
        exact ih (spec_lcm_step a 0) (fun _ => hxs) (fun _ => by omega)
      · have hcount : (b :: xs).count 0 = xs.count 0 :=
          List.count_cons_of_ne (Ne.symm hb) xs
        rw [lcmFold_cons, lcmPair_eq_ok a b (fun hc => hb hc.2)]
        show lcmFold (spec_lcm_step a b) xs
            = Except.ok (xs.foldl spec_lcm_step (spec_lcm_step a b))
        by_cases ha : a = 0
        · have hxs : xs.count 0 = 0 := by
            have hc := h0 ha
            omega
          have hzero : spec_lcm_step a b = 0 :=
            (spec_lcm_step_eq_zero a b).mpr (Or.inl ha)
          exact ih _ (fun _ => hxs) (fun _ => by omega)
        · have hxs : xs.count 0 ≤ 1 := by
            have hc := h1 ha
            omega
          have hnz : spec_lcm_step a b ≠ 0 := by
            intro hc
            rcases (spec_lcm_step_eq_zero a b).mp hc with h | h
            · exact ha h
            · exact hb h
          exact ih _ (fun hc => absurd hc hnz) (fun _ => hxs)

/-- calculate_lcm on a non-empty list with at most one zero succeeds and
    returns the left-to-right fold of |a*b| / gcd(a,b). -/
theorem calculate_lcm_eq (x : Int) (xs : List Int)
    (h : (x :: xs).count 0 ≤ 1) :
    calculate_lcm (x :: xs) = Except.ok (xs.foldl spec_lcm_step x) := by
  show lcmFold x xs = _
  apply lcmFold_eq_of_count
  · intro hx
    subst hx
    rw [List.count_cons_self] at h
    omega
  · intro hx
    rw [List.count_cons_of_ne (Ne.symm hx)] at h
    exact h

theorem lcmFold_nonneg : ∀ (xs : List Int) (a r : Int), 0 ≤ a →
    lcmFold a xs = Except.ok r → 0 ≤ r := by
  intro xs
  induction xs with
  | nil =>
      intro a r ha h
      cases h
      exact ha
  | cons b xs ih =>
      intro a r ha h
      rw [lcmFold_cons] at h
      cases hp : lcmPair a b with
      | error e => rw [hp] at h; exact Except.noConfusion h
      | ok c =>
          rw [hp] at h
          exact ih c r (lcmPair_ok_nonneg a b c hp) h

theorem foldl_gcdStep_nonneg : ∀ (xs : List Int) (a : Int), 0 ≤ a →
    0 ≤ xs.foldl gcdStep a := by
  intro xs
  induction xs with
  | nil => intro a ha; exact ha
  | cons b xs ih =>
      intro a ha
      show 0 ≤ xs.foldl gcdStep (gcdStep a b)
      exact ih (gcdStep a b) (Int.natCast_nonneg _)

/-- The left fold of math.gcd computes a common divisor of the accumulator
    and all list elements that every common divisor divides: the greatest
    common divisor in the divisibility order. -/
theorem foldl_gcdStep_spec : ∀ (xs : List Int) (a : Int),
    (xs.foldl gcdStep a ∣ a ∧ ∀ b ∈ xs, xs.foldl gcdStep a ∣ b) ∧
    (∀ d : Int, d ∣ a → (∀ b ∈ xs, d ∣ b) → d ∣ xs.foldl gcdStep a) := by
  intro xs
  induction xs with
  | nil =>
      intro a
      exact ⟨⟨dvd_refl a, by simp⟩, fun d hd _ => hd⟩
  | cons b xs ih =>
      intro a
      obtain ⟨⟨hda, hdall⟩, huniv⟩ := ih (gcdStep a b)
      have hfold : (b :: xs).foldl gcdStep a = xs.foldl gcdStep (gcdStep a b) :=
        rfl
      rw [hfold]
      refine ⟨⟨hda.trans Int.gcd_dvd_left, ?_⟩, ?_⟩
      · intro c hc
        rcases List.mem_cons.mp hc with rfl | hc
        · exact hda.trans Int.gcd_dvd_right
        · exact hdall c hc
      · intro d hd hball
        apply huniv d
        · exact Int.dvd_gcd hd (hball b (List.mem_cons_self b xs))
        · intro c hc
          exact hball c (List.mem_cons.mpr (Or.inr hc))

/-- Every envelope that the try/except produces carries the constant email
    and has data exactly on success and error exactly on failure. -/
theorem envelopeOf_inv (e : Except PyError BFHLData) :
    (envelopeOf e).official_email = OFFICIAL_EMAIL ∧
    ((envelopeOf e).data.isSome ↔ (envelopeOf e).is_success = true) ∧
    ((envelopeOf e).error.isSome ↔ (envelopeOf e).is_success = false) := by
  cases e with
  | ok d => exact ⟨rfl, by simp [envelopeOf], by simp [envelopeOf]⟩
  | error err =>
      cases err with
      | valueError msg =>
          exact ⟨rfl, by simp [envelopeOf], by simp [envelopeOf]⟩
      | zeroDivision =>
          exact ⟨rfl, by simp [envelopeOf], by simp [envelopeOf]⟩
      | lookupError =>
          exact ⟨rfl, by simp [envelopeOf], by simp [envelopeOf]⟩
      | overflowError =>
          exact ⟨rfl, by simp [envelopeOf], by simp [envelopeOf]⟩

/-- An AI-only request passes the exactly-one-key validation and reaches
    ask_gemini. -/
theorem process_aiRequest (apiKey : Option String)
    (upstream : UpstreamResponse) (q : String) :
    process_request apiKey upstream (aiRequest q)
      = envelopeOf ((ask_gemini apiKey upstream q).map BFHLData.strVal) :=
  rfl

theorem ask_gemini_noKey (upstream : UpstreamResponse) (q : String) :
    ask_gemini none upstream q
      = Except.error (PyError.valueError msgNoApiKey) := rfl

theorem ask_gemini_emptyKey (upstream : UpstreamResponse) (q : String) :
    ask_gemini (some emptyStr) upstream q
      = Except.error (PyError.valueError msgNoApiKey) := by
  unfold ask_gemini
  rw [if_pos]
  rfl

theorem ask_gemini_badStatus (k : String) (upstream : UpstreamResponse)
    (q : String) (hk : k ≠ emptyStr) (hs : upstream.status_code ≠ 200) :
    ask_gemini (some k) upstream q
      = Except.error (PyError.valueError msgAiService) := by
  have h1 : ¬ ((some k).getD emptyStr = emptyStr) := by simpa using hk
  unfold ask_gemini
  rw [if_neg h1, if_pos hs]

theorem ask_gemini_okStatus (k : String) (upstream : UpstreamResponse)
    (q : String) (hk : k ≠ emptyStr) (hs : upstream.status_code = 200) :
    ask_gemini (some k) upstream q
      = match upstream.text with
        | none => Except.error PyError.lookupError
        | some t => firstWord t := by
  have h1 : ¬ ((some k).getD emptyStr = emptyStr) := by simpa using hk
  have h2 : ¬ upstream.status_code ≠ 200 := fun hc => hc hs
  unfold ask_gemini
  rw [if_neg h1, if_neg h2]

/-- Claim C1, amended. The claim said a missing credential or an upstream
    failure yields status 500 with the generic message and that the texts
    "AI API key not configured" and "AI service error" are never surfaced.
    In the code both are raised as ValueError, which the dispatcher catches
    as a client error: the endpoint answers 400 with the original error
    text in the envelope. Only non-ValueError failures follow the generic
    500 path. -/
theorem claim_C1 :
    (∀ (upstream : UpstreamResponse) (q : String),
        process_request none upstream (aiRequest q)
          = Response.mk 400 false OFFICIAL_EMAIL none (some msgNoApiKey)) ∧
    (∀ (upstream : UpstreamResponse) (q : String),
        process_request (some emptyStr) upstream (aiRequest q)
          = Response.mk 400 false OFFICIAL_EMAIL none (some msgNoApiKey)) ∧
    (∀ (k : String) (upstream : UpstreamResponse) (q : String),
        k ≠ emptyStr → upstream.status_code ≠ 200 →
        process_request (some k) upstream (aiRequest q)
          = Response.mk 400 false OFFICIAL_EMAIL none (some msgAiService)) := by
  refine ⟨?_, ?_, ?_⟩
  · intro up q
    rw [process_aiRequest, ask_gemini_noKey]
    rfl
  · intro up q
    rw [process_aiRequest, ask_gemini_emptyKey]
    rfl
  · intro k up q hk hs
    rw [process_aiRequest, ask_gemini_badStatus k up q hk hs]
    rfl

/-- Witness for claim C1 at a concrete key and a concrete 503 upstream. -/
theorem claim_C1_witness :
    process_request (some sampleKey) upstream503 (aiRequest sampleQuestion)
      = Response.mk 400 false OFFICIAL_EMAIL none (some msgAiService) :=
  claim_C1.2.2 sampleKey upstream503 sampleQuestion (by decide) (by decide)

/-- Counterexample to claim C1 as stated: with no API key configured the
    endpoint answers 400, not 500, and the envelope carries the raw text
    "AI API key not configured" rather than the generic message. -/
theorem claim_C1_counterexample :
    process_request none upstream200 (aiRequest sampleQuestion)
      = Response.mk 400 false OFFICIAL_EMAIL none (some msgNoApiKey) := by
  decide

/-- Claim C2: whenever the number of provided fields differs from one, the
    endpoint answers 400 with exactly the message
    "Exactly one key must be provided"; the response is the same for every
    configuration and upstream outcome, so no utility or fetcher result is
    consulted. -/
theorem claim_C2 :
    ∀ (apiKey : Option String) (upstream : UpstreamResponse)
      (req : BFHLRequest), providedCount req ≠ 1 →
      process_request apiKey upstream req
        = Response.mk 400 false OFFICIAL_EMAIL none (some msgOneKey) := by
  intro apiKey up req h
  unfold process_request
  rw [if_pos h]

/-- Witness for claim C2 at the request with zero provided fields. -/
theorem claim_C2_witness :
    process_request none upstream200 emptyRequest
      = Response.mk 400 false OFFICIAL_EMAIL none (some msgOneKey) :=
  claim_C2 none upstream200 emptyRequest (by decide)

/-- Claim C3, amended. The claim said the divisor gcd(a, b) is never zero
    for any accepted non-empty list. That fails for [0, 0]; the correct
    boundary is: for every non-empty list containing at most one zero the
    reduction never divides by zero and calculate_lcm succeeds. -/
theorem claim_C3 :
    ∀ (l : List Int), l ≠ [] → l.count 0 ≤ 1 →
      ∃ r : Int, calculate_lcm l = Except.ok r := by
  intro l hne hcount
  cases l with
  | nil => exact absurd rfl hne
  | cons x xs =>
      exact ⟨xs.foldl spec_lcm_step x, calculate_lcm_eq x xs hcount⟩

/-- Witness for claim C3 on a list containing a single zero. -/
theorem claim_C3_witness :
    ∃ r : Int, calculate_lcm [0, 5, 7] = Except.ok r :=
  claim_C3 [0, 5, 7] (by decide) (by decide)

/-- Counterexample to claim C3 as stated: the accepted input [0, 0] drives
    the running gcd to zero and the division raises ZeroDivisionError. -/
theorem claim_C3_counterexample :
    Int.gcd 0 0 = 0 ∧
    calculate_lcm [0, 0] = Except.error PyError.zeroDivision := by
  exact ⟨rfl, by decide⟩

/-- Claim C4: generate_fibonacci rejects negative n with the ValueError
    message "Number must be non-negative", and for n ≥ 0 returns the first
    n Fibonacci numbers 0, 1, 1, 2, ..., a list of length exactly n; in
    particular the listed values at 0, 1 and 10. -/
theorem claim_C4 :
    (∀ n : Int, n < 0 → generate_fibonacci n
        = Except.error (PyError.valueError msgNonneg)) ∧
    (∀ n : Int, 0 ≤ n → generate_fibonacci n
        = Except.ok ((List.range n.toNat).map (fun j => (Nat.fib j : Int)))) ∧
    (∀ (n : Int) (l : List Int), 0 ≤ n →
        generate_fibonacci n = Except.ok l → l.length = n.toNat) ∧
    generate_fibonacci 0 = Except.ok [] ∧
    generate_fibonacci 1 = Except.ok [0] ∧
    generate_fibonacci 10 = Except.ok [0, 1, 1, 2, 3, 5, 8, 13, 21, 34] := by
  refine ⟨?_, ?_, ?_, by decide, by decide, by decide⟩
  · intro n h
    unfold generate_fibonacci
    rw [if_pos h]
  · exact generate_fibonacci_eq
  · intro n l h hl
    rw [generate_fibonacci_eq n h] at hl
    cases hl
    simp

/-- Witness for claim C4 at n = -1 and n = 3. -/
theorem claim_C4_witness :
    generate_fibonacci (-1) = Except.error (PyError.valueError msgNonneg) ∧
    generate_fibonacci 3 = Except.ok [0, 1, 1] :=
  ⟨claim_C4.1 (-1) (by decide),
   (claim_C4.2.1 3 (by decide)).trans (by decide)⟩

/-- Claim C5, amended. The claim said every non-empty list of integers
    yields exactly its mathematically prime elements. The primality test
    computes int(x**0.5) in floating point, so an element at or above
    2^1024 instead raises OverflowError in the int-to-float conversion
    (surfaced as 500): the claim holds for the empty-list rejection and,
    with order preserved and values below 2 excluded, for every non-empty
    list whose elements lie below 2^52, where the floating-point square
    root is exact; in particular on [2, 3, 4, 5, 9, 11]. -/
theorem claim_C5 :
    get_primes [] = Except.error (PyError.valueError msgEmpty) ∧
    (∀ l : List Int, l ≠ [] → (∀ x ∈ l, x < 2 ^ 52) →
        get_primes l = Except.ok (l.filter (fun x =>
            decide (2 ≤ x ∧ Nat.Prime x.toNat)))) ∧
    get_primes [2, 3, 4, 5, 9, 11] = Except.ok [2, 3, 5, 11] := by
  refine ⟨rfl, ?_, by decide⟩
  intro l h hbound
  unfold get_primes
  rw [if_neg h]
  exact primeFilterLoop_eq l hbound

/-- Witness for claim C5 at the non-empty list [4]. -/
theorem claim_C5_witness : get_primes [4] = Except.ok [] :=
  (claim_C5.2.1 [4] (by decide) (by decide)).trans (by decide)

/-- Counterexample to claim C5 as stated: on the accepted non-empty list
    [10^400] the code does not return the (empty) prime subsequence; the
    conversion of 10^400 to float in the trial-division bound raises
    OverflowError, which the dispatcher surfaces as a 500. -/
theorem claim_C5_counterexample :
    get_primes [10 ^ 400] = Except.error PyError.overflowError := by
  have h2 : ¬ ((10 : Int) ^ 400 < 2) := by norm_num
  have hov : floatOverflowBound ≤ 10 ^ 400 := by
    rw [floatOverflowBound_eq]
    norm_num
  have hip : is_prime (10 ^ 400) = Except.error PyError.overflowError := by
    unfold is_prime
    rw [if_neg h2, if_pos hov]
  have hne : ¬ (([10 ^ 400] : List Int) = []) := List.cons_ne_nil _ _
  unfold get_primes
  rw [if_neg hne]
  simp only [primeFilterLoop]
  rw [hip]

/-- Claim C6, amended. The claim said every non-empty list yields the
    left-to-right pairwise reduction with lcm(a,b) = |a*b| / gcd(a,b). A
    list with two or more zeros instead raises ZeroDivisionError; for
    every non-empty list with at most one zero the stated reduction is
    returned, and the listed examples hold. -/
theorem claim_C6 :
    calculate_lcm [] = Except.error (PyError.valueError msgEmpty) ∧
    (∀ (x : Int) (xs : List Int), (x :: xs).count 0 ≤ 1 →
        calculate_lcm (x :: xs) = Except.ok (xs.foldl spec_lcm_step x)) ∧
    calculate_lcm [4, 6] = Except.ok 12 ∧
    calculate_lcm [3, 5, 7] = Except.ok 105 :=
  ⟨rfl, calculate_lcm_eq, by decide, by decide⟩

/-- Witness for claim C6 at [4, 6]. -/
theorem claim_C6_witness :
    calculate_lcm [4, 6] = Except.ok ([6].foldl spec_lcm_step 4) :=
  claim_C6.2.1 4 [6] (by decide)

/-- Counterexample to claim C6 as stated: on the non-empty list [0, 0] the
    code does not return the reduction value but raises
    ZeroDivisionError. -/
theorem claim_C6_counterexample :
    calculate_lcm [0, 0] = Except.error PyError.zeroDivision := by decide

/-- Claim C7: calculate_hcf rejects the empty list, and on a non-empty
    list folds gcd left-to-right over all elements: the result divides
    every element and is divided by every common divisor; the listed
    examples hold. -/
theorem claim_C7 :
    calculate_hcf [] = Except.error (PyError.valueError msgEmpty) ∧
    (∀ (x : Int) (xs : List Int) (r : Int),
        calculate_hcf (x :: xs) = Except.ok r →
        (∀ b ∈ x :: xs, r ∣ b) ∧
        (∀ d : Int, (∀ b ∈ x :: xs, d ∣ b) → d ∣ r)) ∧
    calculate_hcf [12, 18] = Except.ok 6 ∧
    calculate_hcf [12, 18, 30] = Except.ok 6 := by
  refine ⟨rfl, ?_, by decide, by decide⟩
  intro x xs r h
  have h2 : Except.ok (xs.foldl gcdStep x) = Except.ok r := h
  have hr := (Except.ok.inj h2).symm
  subst hr
  obtain ⟨⟨hda, hdall⟩, huniv⟩ := foldl_gcdStep_spec xs x
  refine ⟨?_, ?_⟩
  · intro b hb
    rcases List.mem_cons.mp hb with rfl | hb
    · exact hda
    · exact hdall b hb
  · intro d hd
    exact huniv d (hd x (List.mem_cons_self x xs))
      (fun c hc => hd c (List.mem_cons.mpr (Or.inr hc)))

/-- Witness for claim C7: the result 6 of hcf [12, 18] divides 12. -/
theorem claim_C7_witness : (6 : Int) ∣ 12 :=
  (claim_C7.2.1 12 [18] 6 (by decide)).1 12 (by simp)

/-- Claim C8: on a 200 upstream response whose body carries a text, the
    fetcher returns only the first whitespace-delimited word of the
    stripped text; when the body shape is malformed (no text at
    candidates[0].content.parts[0].text) the failure surfaces through the
    dispatcher as the generic 500 internal error, never as a defaulted
    value. -/
theorem claim_C8 :
    (∀ (k : String) (upstream : UpstreamResponse) (q t w : String)
        (ws : List String), k ≠ emptyStr → upstream.status_code = 200 →
        upstream.text = some t → pyWords (pyStrip t) = w :: ws →
        ask_gemini (some k) upstream q = Except.ok w) ∧
    (∀ (k : String) (upstream : UpstreamResponse) (q : String),
        k ≠ emptyStr → upstream.status_code = 200 → upstream.text = none →
        process_request (some k) upstream (aiRequest q)
          = Response.mk 500 false OFFICIAL_EMAIL none (some msgInternal)) := by
  constructor
  · intro k up q t w ws hk hs ht hw
    rw [ask_gemini_okStatus k up q hk hs, ht]
    show firstWord t = Except.ok w
    unfold firstWord
    rw [hw]
  · intro k up q hk hs ht
    rw [process_aiRequest, ask_gemini_okStatus k up q hk hs, ht]
    rfl

/-- Witness for claim C8 at a concrete two-word text and at a concrete
    malformed body. -/
theorem claim_C8_witness :
    ask_gemini (some sampleKey) upstreamHello sampleQuestion
        = Except.ok helloWord ∧
    process_request (some sampleKey) upstream200 (aiRequest sampleQuestion)
        = Response.mk 500 false OFFICIAL_EMAIL none (some msgInternal) :=
  ⟨claim_C8.1 sampleKey upstreamHello sampleQuestion helloText helloWord
      [worldWord] (by decide) (by decide) (by decide) (by decide),
   claim_C8.2 sampleKey upstream200 sampleQuestion (by decide) (by decide)
      (by decide)⟩

/-- Claim C9: every response of the endpoint carries the constant
    official_email, has a data field exactly when is_success is true and
    an error field exactly when is_success is false, on the success path
    and on every error path. -/
theorem claim_C9 :
    ∀ (apiKey : Option String) (upstream : UpstreamResponse)
      (req : BFHLRequest),
      (process_request apiKey upstream req).official_email
          = OFFICIAL_EMAIL ∧
      ((process_request apiKey upstream req).data.isSome
          ↔ (process_request apiKey upstream req).is_success = true) ∧
      ((process_request apiKey upstream req).error.isSome
          ↔ (process_request apiKey upstream req).is_success = false) := by
  intro apiKey up req
  unfold process_request
  by_cases h : providedCount req ≠ 1
  · rw [if_pos h]
    exact ⟨rfl, by simp, by simp⟩
  · rw [if_neg h]
    exact envelopeOf_inv (dispatch apiKey up req)

/-- Claim C10: on single-element lists both calculate_lcm and
    calculate_hcf return the element unmodified (so a negative input gives
    a negative result, as at -3), while on lists of two or more elements
    both results are always non-negative. -/
theorem claim_C10 :
    (∀ n : Int, calculate_lcm [n] = Except.ok n
        ∧ calculate_hcf [n] = Except.ok n) ∧
    (∀ (x y : Int) (xs : List Int) (r : Int),
        calculate_lcm (x :: y :: xs) = Except.ok r → 0 ≤ r) ∧
    (∀ (x y : Int) (xs : List Int) (r : Int),
        calculate_hcf (x :: y :: xs) = Except.ok r → 0 ≤ r) ∧
    calculate_lcm [(-3 : Int)] = Except.ok (-3) ∧
    calculate_hcf [(-3 : Int)] = Except.ok (-3) := by
  refine ⟨fun n => ⟨rfl, rfl⟩, ?_, ?_, by decide, by decide⟩
  · intro x y xs r h
    have h2 : lcmFold x (y :: xs) = Except.ok r := h
    rw [lcmFold_cons] at h2
    cases hp : lcmPair x y with
    | error e => rw [hp] at h2; exact Except.noConfusion h2
    | ok c =>
        rw [hp] at h2
        exact lcmFold_nonneg xs c r (lcmPair_ok_nonneg x y c hp) h2
  · intro x y xs r h
    have h2 : Except.ok ((y :: xs).foldl gcdStep x) = Except.ok r := h
    have hr := (Except.ok.inj h2).symm
    subst hr
    show 0 ≤ xs.foldl gcdStep (gcdStep x y)
    exact foldl_gcdStep_nonneg xs (gcdStep x y) (Int.natCast_nonneg _)

/-- Witness for claim C10 at lcm [4, 6] and hcf [12, 18]. -/
theorem claim_C10_witness : (0 : Int) ≤ 12 ∧ (0 : Int) ≤ 6 :=
  ⟨claim_C10.2.1 4 6 [] 12 (by decide),
   claim_C10.2.2.1 12 18 [] 6 (by decide)⟩
